import Mathlib

/-!
Verification of the kapton_daq acquisition core against its specification.

Shallow embedding of the relevant parts of the source:
- `src/daq.py`   : `DAQ._convert_units`, `DAQ.handle_fail`, `DAQ.acquire`,
                   `DAQ.update_controls`, `DAQ.run`, `DAQ.record`
- `src/utils/logger.py`        : `CSVData`
- `src/utils/virtual_device.py`: `VirtualDevice.get`, `VirtualDevice.get_update`,
                                 `VirtualDevice.set`

Scalar readings are modelled as rationals; loops with external side conditions
(wall-clock time, signal flag) take those conditions as explicit functions of
the iteration index.
-/

/-! ## Units and `DAQ._convert_units` (src/daq.py lines 66-79)

The `quantities` library represents `degC` as the same unit magnitude as `K`
and `degF` as `5/9 K`, so `Quantity.rescale` between temperature units is a
pure multiplication by the ratio of unit magnitudes (it is an interval
conversion, with no offset).  InstrumentKit's `util_fns.convert_temperature`
is the affine absolute-temperature conversion. -/

inductive PhysUnit
  | kelvin
  | degC
  | degF
  | volt
deriving DecidableEq, Repr

/-- `isinstance(units, pq.unitquantity.UnitTemperature)` -/
def isTemperature : PhysUnit → Bool
  | .kelvin => true
  | .degC => true
  | .degF => true
  | .volt => false

/-- Magnitude of one unit relative to its base unit, as defined by the
`quantities` package (`degC` has the magnitude of `K`; `degF` is `5/9 K`). -/
def unitScale : PhysUnit → ℚ
  | .kelvin => 1
  | .degC => 1
  | .degF => 5 / 9
  | .volt => 1

structure Quantity where
  mag : ℚ
  units : PhysUnit
deriving DecidableEq, Repr

/-- `quantities`' `Quantity.rescale`: purely multiplicative conversion by the
ratio of the unit magnitudes. -/
def Quantity.rescale (q : Quantity) (u : PhysUnit) : Quantity :=
  ⟨q.mag * unitScale q.units / unitScale u, u⟩

/-- Absolute temperature of a quantity in kelvin (InstrumentKit semantics). -/
def tempToKelvin (q : Quantity) : ℚ :=
  match q.units with
  | .degC => q.mag + 27315 / 100
  | .degF => (q.mag - 32) * 5 / 9 + 27315 / 100
  | _ => q.mag

/-- InstrumentKit `util_fns.convert_temperature`: affine offset-and-scale
conversion between absolute temperature scales. -/
def convert_temperature (q : Quantity) (u : PhysUnit) : Quantity :=
  match u with
  | .degC => ⟨tempToKelvin q - 27315 / 100, u⟩
  | .degF => ⟨(tempToKelvin q - 27315 / 100) * 9 / 5 + 32, u⟩
  | _ => ⟨tempToKelvin q, u⟩

/-- A value handed to `DAQ._convert_units`: either a bare float or a
`pq.Quantity` carrying a unit. -/
inductive PyValue
  | float (x : ℚ)
  | qty (q : Quantity)
deriving DecidableEq, Repr

/-- `DAQ._convert_units` (src/daq.py lines 66-79), branch for branch:
bare numbers get the target unit attached; a `Quantity` whose units differ
from the target is `rescale`d; only when the units are already equal does the
`convert_temperature` branch run. -/
def convert_units : PyValue → PhysUnit → Quantity
  | .float x, u => ⟨x, u⟩
  | .qty q, u =>
    if u ≠ q.units then q.rescale u
    else if isTemperature u then convert_temperature q u
    else q

/-! ## `DAQ.handle_fail` (src/daq.py lines 241-261)

The 60-slice backoff loop polls `self._killer.kill_now` before each
1-second slice.  The flag is modelled as a function of the slice index. -/

/-- Result of one `handle_fail` call: whether the caller should retry
(`True` return) or abort (`False` return), whether the fatal
"Too many consecutive fails" line was logged, and the seconds slept. -/
structure FailResult where
  retry : Bool
  fatal : Bool
  sleep : Nat
deriving DecidableEq, Repr

/-- The backoff loop `for i in range(60): if kill_now: break; time.sleep(1)`
(src/daq.py lines 253-256), with `fuel` iterations left and `i` the current
index; returns the number of 1-second slices actually slept. -/
def backoffSleepAux (kill : Nat → Bool) : Nat → Nat → Nat
  | 0, _ => 0
  | fuel + 1, i => if kill i then 0 else backoffSleepAux kill fuel (i + 1) + 1

def backoffSleep (kill : Nat → Bool) : Nat :=
  backoffSleepAux kill 60 0

/-- `DAQ.handle_fail` (src/daq.py lines 241-261): abort at `max_fails`
consecutive failures; long sliced backoff on positive multiples of 5;
otherwise a single 1-second sleep. -/
def handle_fail (kill : Nat → Bool) (fail_count max_fails : Nat) : FailResult :=
  if fail_count = max_fails then ⟨false, true, 0⟩
  else if fail_count ≠ 0 ∧ fail_count % 5 = 0 then ⟨true, false, backoffSleep kill⟩
  else ⟨true, false, 1⟩

lemma backoffSleepAux_le (kill : Nat → Bool) : ∀ fuel i, backoffSleepAux kill fuel i ≤ fuel := by
  intro fuel
  induction fuel with
  | zero => intro i; simp [backoffSleepAux]
  | succ f ih =>
    intro i
    simp only [backoffSleepAux]
    split
    · omega
    · have := ih (i + 1)
      omega

lemma backoffSleepAux_all_false (kill : Nat → Bool) :
    ∀ fuel i, (∀ j, i ≤ j → j < i + fuel → kill j = false) →
      backoffSleepAux kill fuel i = fuel := by
  intro fuel
  induction fuel with
  | zero => intro i _; simp [backoffSleepAux]
  | succ f ih =>
    intro i h
    have hi : kill i = false := h i (Nat.le_refl i) (by omega)
    simp only [backoffSleepAux, hi]
    simp only [Bool.false_eq_true, if_false]
    have := ih (i + 1) (fun j hj1 hj2 => h j (by omega) (by omega))
    omega

lemma backoffSleepAux_stop (kill : Nat → Bool) :
    ∀ fuel i j, i ≤ j → j < i + fuel → kill j = true →
      backoffSleepAux kill fuel i ≤ j - i := by
  intro fuel
  induction fuel with
  | zero => intro i j _ h2 _; omega
  | succ f ih =>
    intro i j h1 h2 h3
    simp only [backoffSleepAux]
    split
    · omega
    · rename_i hki
      have hij : i ≠ j := by
        intro he
        rw [he] at hki
        rw [h3] at hki
        exact hki rfl
      have := ih (i + 1) j (by omega) (by omega) h3
      omega

lemma handle_fail_not_max (kill : Nat → Bool) (c m : Nat) (h : c ≠ m) :
    (handle_fail kill c m).retry = true ∧ (handle_fail kill c m).fatal = false := by
  simp only [handle_fail, if_neg h]
  split
  · exact ⟨rfl, rfl⟩
  · exact ⟨rfl, rfl⟩

/-! ## `DAQ.acquire` (src/daq.py lines 263-277)

Each probe's read behaviour is modelled as a function from the attempt index
to `Option ℚ` (`none` = the read raises on that attempt).  `killNow = false`
models a run where no termination signal arrives. -/

/-- Outcome of the per-probe retry loop of `DAQ.acquire`:
`reading` is the value appended to `readings` (if any), `aborted` records the
`return None` path, `attempts` the number of read attempts made, and
`fatalLogged` whether `handle_fail` logged the fatal line. -/
structure ProbeAcq where
  reading : Option ℚ
  aborted : Bool
  attempts : Nat
  fatalLogged : Bool
deriving DecidableEq, Repr

/-- The loop `for i in range(self._max_fails)` of `DAQ.acquire`
(src/daq.py lines 269-275), with `fuel` iterations left and `i` the current
attempt index. -/
def acquireProbeAux (killNow : Bool) (max_fails : Nat) (read : Nat → Option ℚ) :
    Nat → Nat → ProbeAcq
  | 0, _ => ⟨none, false, 0, false⟩
  | fuel + 1, i =>
    match read i with
    | some v => ⟨some v, false, 1, false⟩
    | none =>
      if killNow then ⟨none, true, 1, false⟩
      else
        let fr := handle_fail (fun _ => killNow) (i + 1) max_fails
        if fr.retry then
          let rest := acquireProbeAux killNow max_fails read fuel (i + 1)
          ⟨rest.reading, rest.aborted, rest.attempts + 1, rest.fatalLogged || fr.fatal⟩
        else ⟨none, true, 1, fr.fatal⟩

def acquireProbe (killNow : Bool) (max_fails : Nat) (read : Nat → Option ℚ) : ProbeAcq :=
  acquireProbeAux killNow max_fails read max_fails 0

/-- `DAQ.acquire` (src/daq.py lines 263-277) over the probe list:
`none` models `return None` (a probe exhausted its retries or the kill flag
was up on a failure); otherwise the list of readings in probe order. -/
def acquire (killNow : Bool) (max_fails : Nat) : List (Nat → Option ℚ) → Option (List ℚ)
  | [] => some []
  | r :: rs =>
    let pa := acquireProbe killNow max_fails r
    if pa.aborted then none
    else
      match pa.reading with
      | some v => (acquire killNow max_fails rs).map (fun l => v :: l)
      | none => acquire killNow max_fails rs

lemma acquireProbeAux_allFail (m : Nat) :
    ∀ fuel i, i + fuel = m → 0 < fuel →
      acquireProbeAux false m (fun _ => none) fuel i = ⟨none, true, fuel, true⟩ := by
  intro fuel
  induction fuel with
  | zero => intro i _ h; omega
  | succ f ih =>
    intro i hm _
    simp only [acquireProbeAux]
    by_cases hf : f = 0
    · subst hf
      have h1 : i + 1 = m := by omega
      simp [handle_fail, h1]
    · have h1 : i + 1 ≠ m := by omega
      have hr := handle_fail_not_max (fun _ => false) (i + 1) m h1
      simp only [Bool.false_eq_true, if_false, hr.1, if_true]
      rw [ih (i + 1) (by omega) (by omega)]
      simp [hr.2]

lemma acquireProbeAux_succeedAt (m k : Nat) (v : ℚ) (hk : k < m) :
    ∀ fuel i, i + fuel = m → i ≤ k →
      acquireProbeAux false m (fun j => if j < k then none else some v) fuel i =
        ⟨some v, false, k - i + 1, false⟩ := by
  intro fuel
  induction fuel with
  | zero => intro i hm hik; omega
  | succ f ih =>
    intro i hm hik
    by_cases hi : i = k
    · subst hi
      simp [acquireProbeAux]
    · have hilt : i < k := by omega
      have h1 : i + 1 ≠ m := by omega
      have hr := handle_fail_not_max (fun _ => false) (i + 1) m h1
      simp only [acquireProbeAux, if_pos hilt]
      simp only [Bool.false_eq_true, if_false, hr.1, if_true]
      rw [ih (i + 1) (by omega) (by omega)]
      simp only [hr.2, Bool.or_false]
      have : k - (i + 1) + 1 + 1 = k - i + 1 := by omega
      rw [this]

/-! ## `DAQ.run` (src/daq.py lines 304-357)

The while loop is modelled with explicit fuel; the time part of the loop
condition (`not self._time or (curr_time - init_time) < self._time`) is
abstracted as `cont : Nat → Bool` of the iteration counter, the signal flag
`self._killer.kill_now` as `kill : Nat → Bool`, the result of
`self.acquire()` at each iteration as `acq : Nat → Option (List ℚ)`, and the
result of `self.update_controls()` as `ctrlOK : Nat → Bool`.  The output file
stack (`CSVData` sinks) is abstracted to per-file data-row counts. -/

/-- Output sinks of one run: row counts of the files already closed by
rotation, plus the row count of the currently open file. -/
structure SinkState where
  closedFiles : List Nat
  currentRows : Nat
deriving DecidableEq, Repr

/-- The rotation test `self._max_count > 0 and not ite_count%self._max_count`
(src/daq.py line 321). -/
def rotateCond (max_count : Int) (ite : Nat) : Bool :=
  decide (0 < max_count) && decide ((ite : Int) % max_count = 0)

/-- Exit snapshot of the while loop: final sinks, the iteration counter at
exit, and the value of `kill_now` consulted by the terminal log
(src/daq.py line 352). -/
structure RunExit where
  sink : SinkState
  exitIte : Nat
  killAtExit : Bool
deriving DecidableEq, Repr

/-- One unrolling of the while loop of `DAQ.run` (src/daq.py lines 318-349):
check the loop condition; maybe rotate the sink; acquire (break on a falsy
result); record the row; update controls (break on failure); next iteration. -/
def runAux (mc : Int) (cont kill : Nat → Bool) (acq : Nat → Option (List ℚ))
    (ctrlOK : Nat → Bool) : Nat → Nat → SinkState → RunExit
  | 0, ite, s => ⟨s, ite, kill ite⟩
  | fuel + 1, ite, s =>
    if !cont ite || kill ite then ⟨s, ite, kill ite⟩
    else
      let s1 := if rotateCond mc ite then
          ⟨s.closedFiles ++ [s.currentRows], 0⟩ else s
      match acq ite with
      | none => ⟨s1, ite, kill ite⟩
      | some [] => ⟨s1, ite, kill ite⟩
      | some (_ :: _) =>
        let s2 : SinkState := ⟨s1.closedFiles, s1.currentRows + 1⟩
        if ctrlOK ite then runAux mc cont kill acq ctrlOK fuel (ite + 1) s2
        else ⟨s2, ite, kill ite⟩

/-- The terminal status line of `DAQ.run` (src/daq.py lines 352-355). -/
def daqFinalLog (kill_now : Bool) : String :=
  if kill_now then "DAQ terminated" else "Requested acquisition time completed"

/-- Result of a whole `DAQ.run`: data-row counts of all files produced (in
creation order, the file open at exit included), total rows written, the
iteration counter at loop exit, and the terminal log line. -/
structure RunResult where
  files : List Nat
  rows : Nat
  exitIte : Nat
  finalLog : String
deriving DecidableEq, Repr

def runModel (mc : Int) (cont kill : Nat → Bool) (acq : Nat → Option (List ℚ))
    (ctrlOK : Nat → Bool) (fuel : Nat) : RunResult :=
  let e := runAux mc cont kill acq ctrlOK fuel 0 ⟨[], 0⟩
  let files := e.sink.closedFiles ++ [e.sink.currentRows]
  ⟨files, files.sum, e.exitIte, daqFinalLog e.killAtExit⟩

/-! ## Sleep slicing and shutdown latency

`DAQ.handle_fail`'s long backoff (src/daq.py lines 253-256) sleeps in 60
slices of 1 second, polling `kill_now` before each slice.  The refresh wait
of `DAQ.run` (src/daq.py line 343) is a single `time.sleep(self._rate)` with
no poll inside (the SIGINT/SIGTERM handler only sets the flag and the sleep
is resumed for its remaining duration).  A sleep is modelled by the list of
its atomic chunks, between which the flag is polled. -/

def backoffSleepChunks : List Nat := List.replicate 60 1

def refreshSleepChunks (rate : Nat) : List Nat := [rate]

/-- Worst-case delay between the termination signal arriving during a sleep
and the next poll of the flag: the signal can arrive right at the start of
the largest atomic chunk. -/
def worstCaseLatency (chunks : List Nat) : Nat := chunks.foldl max 0

/-! ## Ordered string-keyed maps

Python's `dict` (used by `CSVData._dict`) and the column view of the
device file are modelled as insertion-ordered association lists. -/

def hasKey : List (String × ℚ) → String → Bool
  | [], _ => false
  | p :: ps, k => if p.1 = k then true else hasKey ps k

def lookupQ : List (String × ℚ) → String → Option ℚ
  | [], _ => none
  | p :: ps, k => if p.1 = k then some p.2 else lookupQ ps k

/-- Replace the value stored under an existing key, keeping positions. -/
def listUpdate (l : List (String × ℚ)) (k : String) (v : ℚ) : List (String × ℚ) :=
  l.map (fun p => if p.1 = k then (k, v) else p)

/-- `self._dict[key] = value`: update in place if the key exists, else append
(Python dicts preserve insertion order). -/
def dictInsert (d : List (String × ℚ)) (k : String) (v : ℚ) : List (String × ℚ) :=
  if hasKey d k then listUpdate d k v else d ++ [(k, v)]

lemma hasKey_append (l1 l2 : List (String × ℚ)) (k : String) :
    hasKey (l1 ++ l2) k = (hasKey l1 k || hasKey l2 k) := by
  induction l1 with
  | nil => simp [hasKey]
  | cons p ps ih =>
    simp only [List.cons_append, hasKey]
    split
    · simp
    · exact ih

lemma listUpdate_append (l1 l2 : List (String × ℚ)) (k : String) (v : ℚ) :
    listUpdate (l1 ++ l2) k v = listUpdate l1 k v ++ listUpdate l2 k v := by
  simp [listUpdate]

lemma listUpdate_of_hasKey_false (l : List (String × ℚ)) (k : String) (v : ℚ)
    (h : hasKey l k = false) : listUpdate l k v = l := by
  induction l with
  | nil => simp [listUpdate]
  | cons p ps ih =>
    simp only [hasKey] at h
    by_cases hp : p.1 = k
    · rw [if_pos hp] at h
      exact absurd h (by simp)
    · rw [if_neg hp] at h
      simp only [listUpdate, List.map_cons, if_neg hp]
      rw [show List.map (fun p => if p.1 = k then (k, v) else p) ps = listUpdate ps k v from rfl,
        ih h]

lemma lookupQ_listUpdate_self (l : List (String × ℚ)) (k : String) (v : ℚ)
    (h : hasKey l k = true) : lookupQ (listUpdate l k v) k = some v := by
  induction l with
  | nil => simp [hasKey] at h
  | cons p ps ih =>
    simp only [hasKey] at h
    by_cases hp : p.1 = k
    · simp [listUpdate, lookupQ, if_pos hp]
    · rw [if_neg hp] at h
      simp only [listUpdate, List.map_cons, if_neg hp, lookupQ]
      exact ih h

lemma hasKey_zip_false (ks : List String) (vs : List ℚ) (k : String) (h : k ∉ ks) :
    hasKey (ks.zip vs) k = false := by
  induction ks generalizing vs with
  | nil => simp [hasKey]
  | cons a as ih =>
    cases vs with
    | nil => simp [hasKey]
    | cons b bs =>
      simp only [List.zip_cons_cons, hasKey]
      simp only [List.mem_cons, not_or] at h
      rw [if_neg (fun he => h.1 he.symm)]
      exact ih bs h.2

/-! ## `CSVData` (src/utils/logger.py lines 28-59) and `DAQ.record`
(src/daq.py lines 227-233)

`CSVData.write` opens the file and writes the header (the current dict keys)
on its first call only; every later call formats the current dict values with
the format string fixed at header time (one `\x7b:f\x7d` placeholder per
header key, so a row never carries more columns than the header). -/

structure CSVFile where
  header : Option (List String)
  headerWrites : Nat
  rows : List (List ℚ)
deriving DecidableEq, Repr

/-- `CSVData.record` (src/utils/logger.py lines 33-35): store `vals[i]` under
`keys[i]` in the insertion-ordered dict.  (In the source, `vals` shorter than
`keys` would raise `IndexError`; `DAQ.record` always passes lists of equal
length.) -/
def csvRecord (d : List (String × ℚ)) (keys : List String) (vals : List ℚ) :
    List (String × ℚ) :=
  (keys.zip vals).foldl (fun acc kv => dictInsert acc kv.1 kv.2) d

/-- `CSVData.write` (src/utils/logger.py lines 37-49). -/
def csvWrite (f : CSVFile) (d : List (String × ℚ)) : CSVFile :=
  match f.header with
  | none =>
    ⟨some (d.map Prod.fst), f.headerWrites + 1, f.rows ++ [d.map Prod.snd]⟩
  | some ks =>
    ⟨f.header, f.headerWrites, f.rows ++ [(d.map Prod.snd).take ks.length]⟩

/-- `DAQ.record` (src/daq.py lines 227-233): one `record` + `write` (+flush)
round with the fixed key list `self._data_keys`. -/
def daqRecord (keys : List String) (st : List (String × ℚ) × CSVFile)
    (vals : List ℚ) : List (String × ℚ) × CSVFile :=
  let d := csvRecord st.1 keys vals
  (d, csvWrite st.2 d)

/-- All `DAQ.record` calls targeting one output file, starting from a fresh
`CSVData` (empty dict, header not yet written). -/
def daqRecordAll (keys : List String) (valss : List (List ℚ)) :
    List (String × ℚ) × CSVFile :=
  valss.foldl (daqRecord keys) ([], ⟨none, 0, []⟩)

/-- The DAQ column keys (src/daq.py lines 126 and 185): `time` first, then
one "name [unit symbol]" key per probe in declaration order. -/
structure ProbeInfo where
  name : String
  u_symbol : String
deriving DecidableEq, Repr

def dataKeys (probes : List ProbeInfo) : List String :=
  "time" :: probes.map (fun p => p.name ++ " [" ++ p.u_symbol ++ "]")

/-! ## `VirtualDevice` (src/utils/virtual_device.py)

State: the in-memory last-observed values `self._meas_vals` and the last row
of the on-disk device file (the only row the code reads, via `iloc[-1]`).
Each operation returns `Except`: an `error` models a raised exception, which
in the source happens before any state is read or mutated, so no new state is
produced on the error path. -/

structure VirtualDevice where
  meas_vals : List (String × ℚ)
  dev_file : List (String × ℚ)
deriving DecidableEq, Repr

/-- The message of the guard `KeyError` raised by all three operations. -/
def keyErrMsg (name : String) : String :=
  "The VirtualDevice does not contain a value for " ++ name

/-- `VirtualDevice.get` (src/utils/virtual_device.py lines 53-63). -/
def VirtualDevice.get (d : VirtualDevice) (name : String) :
    Except String (ℚ × VirtualDevice) :=
  if hasKey d.meas_vals name = false then .error (keyErrMsg name)
  else
    match lookupQ d.dev_file name with
    | none => .error ("device file has no column " ++ name)
    | some value => .ok (value, d)

/-- `VirtualDevice.get_update` (src/utils/virtual_device.py lines 35-51):
returns the file value together with the update flag, storing the file value
as the new last-observed value when it differs.  (`getD 0` is only a totality
device: the guard has already established that the key is present.) -/
def VirtualDevice.get_update (d : VirtualDevice) (name : String) :
    Except String ((ℚ × Bool) × VirtualDevice) :=
  if hasKey d.meas_vals name = false then .error (keyErrMsg name)
  else
    match lookupQ d.dev_file name with
    | none => .error ("device file has no column " ++ name)
    | some value =>
      if value ≠ (lookupQ d.meas_vals name).getD 0 then
        .ok ((value, true), { d with meas_vals := listUpdate d.meas_vals name value })
      else .ok ((value, false), d)

/-- `VirtualDevice.set` (src/utils/virtual_device.py lines 65-78): writes the
file and the in-memory value only when the new value differs from the stored
last value; the returned Bool records whether a file write happened. -/
def VirtualDevice.set (d : VirtualDevice) (name : String) (value : ℚ) :
    Except String (VirtualDevice × Bool) :=
  if hasKey d.meas_vals name = false then .error (keyErrMsg name)
  else if value ≠ (lookupQ d.meas_vals name).getD 0 then
    .ok (⟨listUpdate d.meas_vals name value, listUpdate d.dev_file name value⟩, true)
  else .ok (d, false)

/-! ## `DAQ.update_controls` (src/daq.py lines 279-302)

One cycle for one control: the external actor has set the shadow file to
`ext`; `update_controls` calls `vprobe = vinst.get_update(vmeas)` and pushes
`value` to the real power supply iff the update flag is set.  The second
component counts instrument writes in the cycle (0 or 1). -/

def controlCycle (d : VirtualDevice) (name : String) (ext : ℚ) :
    VirtualDevice × Nat :=
  let dExt : VirtualDevice := { d with dev_file := listUpdate d.dev_file name ext }
  match VirtualDevice.get_update dExt name with
  | .ok ((_, upd), d2) => (d2, if upd then 1 else 0)
  | .error _ => (dExt, 0)

/-- Instrument writes over a whole run, one cycle per observed shadow value. -/
def controlWrites (d : VirtualDevice) (name : String) : List ℚ → Nat
  | [] => 0
  | x :: xs =>
    let r := controlCycle d name x
    r.2 + controlWrites r.1 name xs

/-! ## Lemmas about `csvRecord` and `daqRecordAll` -/

lemma csvRecord_fresh (keys : List String) :
    ∀ (vals : List ℚ) (p : List (String × ℚ)), keys.Nodup →
      (∀ k ∈ keys, hasKey p k = false) →
      (keys.zip vals).foldl (fun d kv => dictInsert d kv.1 kv.2) p = p ++ keys.zip vals := by
  induction keys with
  | nil => intro vals p _ _; simp
  | cons a as ih =>
    intro vals p hnd hfresh
    cases vals with
    | nil => simp
    | cons b bs =>
      simp only [List.zip_cons_cons, List.foldl_cons]
      have hpa : hasKey p a = false := hfresh a (List.mem_cons_self a as)
      have hstep : dictInsert p a b = p ++ [(a, b)] := by
        simp [dictInsert, hpa]
      rw [hstep]
      have hnd' := (List.nodup_cons.mp hnd)
      have hfresh' : ∀ k ∈ as, hasKey (p ++ [(a, b)]) k = false := by
        intro k hk
        rw [hasKey_append]
        have h1 : hasKey p k = false := hfresh k (List.mem_cons_of_mem a hk)
        have h2 : hasKey [(a, b)] k = false := by
          have : a ≠ k := fun he => hnd'.1 (he ▸ hk)
          simp [hasKey, this]
        simp [h1, h2]
      rw [ih bs (p ++ [(a, b)]) hnd'.2 hfresh']
      simp

lemma csvRecord_update (keys : List String) :
    ∀ (old vals : List ℚ) (p : List (String × ℚ)), keys.Nodup →
      old.length = keys.length → vals.length = keys.length →
      (∀ k ∈ keys, hasKey p k = false) →
      (keys.zip vals).foldl (fun d kv => dictInsert d kv.1 kv.2) (p ++ keys.zip old) =
        p ++ keys.zip vals := by
  induction keys with
  | nil =>
    intro old vals p _ hlo hlv _
    rw [List.length_eq_zero.mp hlo, List.length_eq_zero.mp hlv]
    simp
  | cons a as ih =>
    intro old vals p hnd hlo hlv hfresh
    cases old with
    | nil => simp at hlo
    | cons o os =>
      cases vals with
      | nil => simp at hlv
      | cons v vs =>
        simp only [List.zip_cons_cons, List.foldl_cons]
        have hnd' := (List.nodup_cons.mp hnd)
        have hpa : hasKey p a = false := hfresh a (List.mem_cons_self a as)
        have hkey : hasKey (p ++ (a, o) :: as.zip os) a = true := by
          rw [hasKey_append]
          simp [hasKey]
        have hzip : hasKey (as.zip os) a = false := hasKey_zip_false as os a hnd'.1
        have hstep : dictInsert (p ++ (a, o) :: as.zip os) a v =
            (p ++ [(a, v)]) ++ as.zip os := by
          simp only [dictInsert, hkey, if_true, listUpdate_append]
          rw [listUpdate_of_hasKey_false p a v hpa]
          simp only [listUpdate, List.map_cons, if_pos rfl]
          rw [show List.map (fun q => if q.1 = a then (a, v) else q) (as.zip os) =
            listUpdate (as.zip os) a v from rfl]
          rw [listUpdate_of_hasKey_false (as.zip os) a v hzip]
          simp
        rw [hstep]
        have hfresh' : ∀ k ∈ as, hasKey (p ++ [(a, v)]) k = false := by
          intro k hk
          rw [hasKey_append]
          have h1 : hasKey p k = false := hfresh k (List.mem_cons_of_mem a hk)
          have h2 : hasKey [(a, v)] k = false := by
            have : a ≠ k := fun he => hnd'.1 (he ▸ hk)
            simp [hasKey, this]
          simp [h1, h2]
        rw [ih os vs (p ++ [(a, v)]) hnd'.2 (by simpa using hlo) (by simpa using hlv) hfresh']
        simp

lemma daqRecordAll_go (keys : List String) (hnd : keys.Nodup) :
    ∀ (valss : List (List ℚ)) (w : List ℚ) (rs : List (List ℚ)),
      w.length = keys.length →
      (∀ vs ∈ valss, vs.length = keys.length) →
      ∃ w2, w2.length = keys.length ∧
        valss.foldl (daqRecord keys) (keys.zip w, ⟨some keys, 1, rs⟩) =
          (keys.zip w2, ⟨some keys, 1, rs ++ valss⟩) := by
  intro valss
  induction valss with
  | nil =>
    intro w rs hw _
    exact ⟨w, hw, by simp⟩
  | cons v vrest ih =>
    intro w rs hw hlen
    have hv : v.length = keys.length := hlen v (List.mem_cons_self v vrest)
    simp only [List.foldl_cons]
    have hdict : csvRecord (keys.zip w) keys v = keys.zip v := by
      have := csvRecord_update keys w v [] hnd hw hv (fun k _ => rfl)
      simpa [csvRecord] using this
    have hstep : daqRecord keys (keys.zip w, ⟨some keys, 1, rs⟩) v =
        (keys.zip v, ⟨some keys, 1, rs ++ [v]⟩) := by
      simp only [daqRecord, hdict, csvWrite]
      rw [List.map_snd_zip keys v (le_of_eq hv)]
      rw [← hv, List.take_length]
    rw [hstep]
    obtain ⟨w2, hw2, heq⟩ := ih v (rs ++ [v]) hv (fun vs hvs => hlen vs (List.mem_cons_of_mem v hvs))
    exact ⟨w2, hw2, by rw [heq]; simp⟩

/-! ## Claim theorems -/

/-- C1: a probe whose read raises on every attempt makes the acquisition
abort after exactly `max_fails` attempts, with the fatal line logged on the
`max_fails`-th failure; `acquire` returns no readings and the run writes no
row for that cycle.  Conversely, a probe that fails `k < max_fails` times and
then succeeds yields exactly one reading, after `k + 1` attempts, without
aborting. -/
theorem acquire_retry_exhaustion (m k : Nat) (v : ℚ) (hm : 0 < m) (hk : k < m) :
    acquireProbe false m (fun _ => none) = ⟨none, true, m, true⟩ ∧
    acquire false m [fun _ => none] = none ∧
    (runModel (-1) (fun _ => true) (fun _ => false)
        (fun _ => acquire false m [fun _ => none]) (fun _ => true) 3).rows = 0 ∧
    acquireProbe false m (fun j => if j < k then none else some v) =
      ⟨some v, false, k + 1, false⟩ ∧
    acquire false m [fun j => if j < k then none else some v] = some [v] := by
  have h1 : acquireProbe false m (fun _ => none) = ⟨none, true, m, true⟩ := by
    show acquireProbeAux false m (fun _ => none) m 0 = _
    rw [acquireProbeAux_allFail m m 0 (by omega) hm]
  have h2 : acquire false m [fun _ => none] = none := by
    simp [acquire, h1]
  have h4 : acquireProbe false m (fun j => if j < k then none else some v) =
      ⟨some v, false, k + 1, false⟩ := by
    show acquireProbeAux false m (fun j => if j < k then none else some v) m 0 = _
    rw [acquireProbeAux_succeedAt m k v hk m 0 (by omega) (by omega)]
    simp
  refine ⟨h1, h2, ?_, h4, ?_⟩
  · simp only [h2]
    rfl
  · simp [acquire, h4]

theorem acquire_retry_exhaustion_witness :
    acquireProbe false 6 (fun _ => none) = ⟨none, true, 6, true⟩ ∧
    acquire false 6 [fun _ => none] = none ∧
    (runModel (-1) (fun _ => true) (fun _ => false)
        (fun _ => acquire false 6 [fun _ => none]) (fun _ => true) 3).rows = 0 ∧
    acquireProbe false 6 (fun j => if j < 5 then none else some 42) =
      ⟨some 42, false, 5 + 1, false⟩ ∧
    acquire false 6 [fun j => if j < 5 then none else some 42] = some [42] :=
  acquire_retry_exhaustion 6 5 42 (by decide) (by decide)

/-- C2: for a consecutive-failure count `n` with `0 < n < max_fails`,
`handle_fail` tells the caller to retry (no fatal); if `n` is a positive
multiple of 5 it sleeps at most 60 one-second slices, sleeps the full 60 when
the flag never rises, and stops no later than the slice at which the flag is
seen up; otherwise it sleeps exactly 1 second. -/
theorem handle_fail_backoff_policy (kill : Nat → Bool) (n m : Nat)
    (h1 : 0 < n) (h2 : n < m) :
    (handle_fail kill n m).retry = true ∧
    (handle_fail kill n m).fatal = false ∧
    (n % 5 = 0 →
      (handle_fail kill n m).sleep ≤ 60 ∧
      ((∀ j, j < 60 → kill j = false) → (handle_fail kill n m).sleep = 60) ∧
      (∀ j, j < 60 → kill j = true → (handle_fail kill n m).sleep ≤ j)) ∧
    (n % 5 ≠ 0 → (handle_fail kill n m).sleep = 1) := by
  have hnm : n ≠ m := by omega
  refine ⟨(handle_fail_not_max kill n m hnm).1, (handle_fail_not_max kill n m hnm).2, ?_, ?_⟩
  · intro h5
    have hcond : (n ≠ 0 ∧ n % 5 = 0) := ⟨by omega, h5⟩
    have hs : (handle_fail kill n m).sleep = backoffSleep kill := by
      simp [handle_fail, hnm, hcond]
    refine ⟨?_, ?_, ?_⟩
    · rw [hs]
      exact backoffSleepAux_le kill 60 0
    · intro hnever
      rw [hs]
      exact backoffSleepAux_all_false kill 60 0 (fun j _ hj => hnever j (by omega))
    · intro j hj hkj
      rw [hs]
      show backoffSleepAux kill 60 0 ≤ j
      have := backoffSleepAux_stop kill 60 0 j (by omega) (by omega) hkj
      omega
  · intro h5
    have hcond : ¬ (n ≠ 0 ∧ n % 5 = 0) := fun hc => h5 hc.2
    simp [handle_fail, hnm, hcond]

theorem handle_fail_backoff_policy_witness :
    (handle_fail (fun i => decide (30 ≤ i)) 5 16).retry = true ∧
    (handle_fail (fun i => decide (30 ≤ i)) 5 16).fatal = false ∧
    (5 % 5 = 0 →
      (handle_fail (fun i => decide (30 ≤ i)) 5 16).sleep ≤ 60 ∧
      ((∀ j, j < 60 → (fun i => decide (30 ≤ i)) j = false) →
        (handle_fail (fun i => decide (30 ≤ i)) 5 16).sleep = 60) ∧
      (∀ j, j < 60 → (fun i => decide (30 ≤ i)) j = true →
        (handle_fail (fun i => decide (30 ≤ i)) 5 16).sleep ≤ j)) ∧
    (5 % 5 ≠ 0 → (handle_fail (fun i => decide (30 ≤ i)) 5 16).sleep = 1) :=
  handle_fail_backoff_policy (fun i => decide (30 ≤ i)) 5 16 (by decide) (by decide)

set_option maxRecDepth 4000 in
/-- C3, counterexample: the refresh wait of `DAQ.run` is a single
`time.sleep(self._rate)` with no flag poll inside, so with a refresh rate of
60 s a signal arriving at the start of that sleep is only observed 60 s
later, not within one 1-second slice; only the backoff sleep is sliced. -/
theorem refresh_sleep_latency_counterexample :
    worstCaseLatency (refreshSleepChunks 60) = 60 ∧
    ¬ worstCaseLatency (refreshSleepChunks 60) ≤ 1 ∧
    worstCaseLatency backoffSleepChunks = 1 := by decide

set_option maxRecDepth 4000 in
/-- C3, amended: the backoff sleep is sliced into 1-second chunks with the
flag polled before each slice, so a signal raised at slice `j` bounds the
backoff to at most `j` slices (and 60 in any case); the refresh sleep,
however, is one unsliced chunk of the full configured rate, so a signal
during it waits out the remainder of the whole refresh interval. -/
theorem shutdown_latency_amended (rate : Nat) (kill : Nat → Bool) (j : Nat)
    (hj : j < 60) (hk : kill j = true) :
    worstCaseLatency backoffSleepChunks = 1 ∧
    backoffSleep kill ≤ j ∧
    backoffSleep kill ≤ 60 ∧
    worstCaseLatency (refreshSleepChunks rate) = rate := by
  refine ⟨by decide, ?_, ?_, ?_⟩
  · show backoffSleepAux kill 60 0 ≤ j
    have := backoffSleepAux_stop kill 60 0 j (by omega) (by omega) hk
    omega
  · exact backoffSleepAux_le kill 60 0
  · simp [worstCaseLatency, refreshSleepChunks]

theorem shutdown_latency_amended_witness :
    worstCaseLatency backoffSleepChunks = 1 ∧
    backoffSleep (fun i => decide (3 ≤ i)) ≤ 3 ∧
    backoffSleep (fun i => decide (3 ≤ i)) ≤ 60 ∧
    worstCaseLatency (refreshSleepChunks 60) = 60 :=
  shutdown_latency_amended 60 (fun i => decide (3 ≤ i)) 3 (by decide) (by decide)

/-- C4, counterexample: with rotation at max row count 3 and 7 completed
iterations, the run opens 4 sinks with 0, 3, 3, 1 data rows, not 3 sinks with
3, 3, 1: the rotation test `not ite_count % max_count` is also true at
iteration 0 (which is not a *positive* multiple of 3), so the file opened
before the loop is closed again, empty, at the first iteration. -/
theorem rotation_counterexample :
    (runModel 3 (fun i => decide (i < 7)) (fun _ => false) (fun _ => some [0])
      (fun _ => true) 8).files = [0, 3, 3, 1] ∧
    (runModel 3 (fun i => decide (i < 7)) (fun _ => false) (fun _ => some [0])
      (fun _ => true) 8).files.length ≠ 3 ∧
    rotateCond 3 0 = true := by decide

/-- C4, amended: the sink is rotated exactly when row rotation is enabled
(`max_count > 0`) and the iteration counter is a multiple of `max_count`,
*including zero*; with max row count 3 and 7 completed iterations, 4 sinks
are opened with 0, 3, 3, 1 data rows (the first is closed empty at the first
iteration), and likewise 0, 2, 2, 1 for max count 2 and 5 iterations. -/
theorem rotation_amended (mc : Int) (ite : Nat) :
    (rotateCond mc ite = true ↔ 0 < mc ∧ (ite : Int) % mc = 0) ∧
    (runModel 3 (fun i => decide (i < 7)) (fun _ => false) (fun _ => some [0])
      (fun _ => true) 8).files = [0, 3, 3, 1] ∧
    (runModel 2 (fun i => decide (i < 5)) (fun _ => false) (fun _ => some [0])
      (fun _ => true) 6).files = [0, 2, 2, 1] := by
  refine ⟨?_, by decide, by decide⟩
  simp [rotateCond]

/-- C5: a control's cycle writes to the real instrument iff the shadow value
read that cycle differs from the last-observed shadow value; over the shadow
sequence [5, 5, 5, 7, 7] from a last-observed value of 0, exactly 2 writes
occur. -/
theorem control_edge_triggered (d : VirtualDevice) (name : String) (x : ℚ)
    (h1 : hasKey d.meas_vals name = true) (h2 : hasKey d.dev_file name = true) :
    (controlCycle d name x).2 =
      (if x ≠ (lookupQ d.meas_vals name).getD 0 then 1 else 0) ∧
    controlWrites ⟨[("current", 0)], [("current", 0)]⟩ "current" [5, 5, 5, 7, 7] = 2 := by
  constructor
  · have hup : lookupQ (listUpdate d.dev_file name x) name = some x :=
      lookupQ_listUpdate_self d.dev_file name x h2
    by_cases hne : x ≠ (lookupQ d.meas_vals name).getD 0
    · simp [controlCycle, VirtualDevice.get_update, h1, hup, if_pos hne]
    · simp [controlCycle, VirtualDevice.get_update, h1, hup, if_neg hne]
  · rfl

theorem control_edge_triggered_witness :
    (controlCycle ⟨[("current", 0)], [("current", 0)]⟩ "current" 5).2 =
      (if (5 : ℚ) ≠ (lookupQ [("current", 0)] "current").getD 0 then 1 else 0) ∧
    controlWrites ⟨[("current", 0)], [("current", 0)]⟩ "current" [5, 5, 5, 7, 7] = 2 :=
  control_edge_triggered ⟨[("current", 0)], [("current", 0)]⟩ "current" 5
    (by decide) (by decide)

/-- C6: `_convert_units` checks `units != value.units` *before* the
temperature test, so a temperature reading whose unit differs from the
target goes through the purely multiplicative `rescale`, not through the
affine `convert_temperature`: 25 degC comes out as 45 degF instead of the
affine 77 degF (the `convert_temperature` branch only runs when the units
are already equal).  The bare-number branch does attach the target unit
unchanged, and the multiplicative magnitudes do round-trip C to F to C. -/
theorem convert_units_temperature_divergence :
    convert_units (.qty ⟨25, .degC⟩) .degF = ⟨45, .degF⟩ ∧
    convert_temperature ⟨25, .degC⟩ .degF = ⟨77, .degF⟩ ∧
    convert_units (.qty ⟨25, .degC⟩) .degF ≠ convert_temperature ⟨25, .degC⟩ .degF ∧
    convert_units (.float 25) .degF = ⟨25, .degF⟩ ∧
    convert_units (.qty (convert_units (.qty ⟨25, .degC⟩) .degF)) .degC = ⟨25, .degC⟩ := by
  have h1 : convert_units (.qty ⟨25, .degC⟩) .degF = ⟨45, .degF⟩ := by
    norm_num [convert_units, Quantity.rescale, unitScale, Quantity.mk.injEq]
    intro hcontra
    exact absurd hcontra (by decide)
  have h2 : convert_temperature ⟨25, .degC⟩ .degF = ⟨77, .degF⟩ := by
    norm_num [convert_temperature, tempToKelvin, Quantity.mk.injEq]
  refine ⟨h1, h2, ?_, rfl, ?_⟩
  · rw [h1, h2]
    intro h
    have hmag := congrArg Quantity.mag h
    norm_num at hmag
  · rw [h1]
    norm_num [convert_units, Quantity.rescale, unitScale, Quantity.mk.injEq]
    intro hcontra
    exact absurd hcontra (by decide)

/-- C7, counterexample: the terminal status at loop exit depends only on
`kill_now`, so a run ended by retry exhaustion (acquire aborted, no signal)
logs exactly the same terminal line as a run that completed its time budget:
"Requested acquisition time completed". -/
theorem terminal_log_counterexample :
    (runModel (-1) (fun _ => true) (fun _ => false) (fun _ => none)
      (fun _ => true) 4).finalLog =
    (runModel (-1) (fun i => decide (i < 2)) (fun _ => false) (fun _ => some [1])
      (fun _ => true) 4).finalLog ∧
    (runModel (-1) (fun _ => true) (fun _ => false) (fun _ => none)
      (fun _ => true) 4).finalLog = "Requested acquisition time completed" := by
  exact ⟨rfl, rfl⟩

/-- C7, amended: the terminal status distinguishes only termination by
signal ("DAQ terminated") from every other exit ("Requested acquisition time
completed"); a retry-exhaustion exit logs the same terminal line as a
time-budget completion and is distinguishable only through the fatal
"Too many consecutive fails" line `handle_fail` logs when the failure count
reaches `max_fails`. -/
theorem terminal_log_amended (mc : Int) (cont kill : Nat → Bool)
    (acq : Nat → Option (List ℚ)) (ctrlOK : Nat → Bool) (fuel : Nat)
    (kf : Nat → Bool) (m : Nat) :
    daqFinalLog true = "DAQ terminated" ∧
    daqFinalLog false = "Requested acquisition time completed" ∧
    "DAQ terminated" ≠ "Requested acquisition time completed" ∧
    (runModel mc cont kill acq ctrlOK fuel).finalLog =
      daqFinalLog (runAux mc cont kill acq ctrlOK fuel 0 ⟨[], 0⟩).killAtExit ∧
    (runModel (-1) (fun _ => true) (fun _ => true) (fun _ => some [1])
      (fun _ => true) 4).finalLog = "DAQ terminated" ∧
    (handle_fail kf m m).fatal = true := by
  refine ⟨rfl, rfl, by decide, rfl, rfl, ?_⟩
  simp [handle_fail]

/-- C8: within one output file, the header is written exactly once, equals
the keys supplied with the first recorded row (the DAQ data keys), and every
data row carries exactly one value per header key, in the same order: the
file contents are precisely the recorded value lists.  The data keys are
"time" first, then one "name [unit symbol]" key per probe in declaration
order. -/
theorem output_schema_invariant (probes : List ProbeInfo) (valss : List (List ℚ))
    (hnd : (dataKeys probes).Nodup) (hne : valss ≠ [])
    (hlen : ∀ vs ∈ valss, vs.length = (dataKeys probes).length) :
    (daqRecordAll (dataKeys probes) valss).2.header = some (dataKeys probes) ∧
    (daqRecordAll (dataKeys probes) valss).2.headerWrites = 1 ∧
    (daqRecordAll (dataKeys probes) valss).2.rows = valss ∧
    (∀ r ∈ (daqRecordAll (dataKeys probes) valss).2.rows,
      r.length = (dataKeys probes).length) ∧
    dataKeys probes = "time" :: probes.map (fun p => p.name ++ " [" ++ p.u_symbol ++ "]") := by
  cases valss with
  | nil => exact absurd rfl hne
  | cons v vrest =>
    have hv : v.length = (dataKeys probes).length := hlen v (List.mem_cons_self v vrest)
    have hfirst : daqRecord (dataKeys probes) ([], ⟨none, 0, []⟩) v =
        ((dataKeys probes).zip v, ⟨some (dataKeys probes), 1, [v]⟩) := by
      have hdict : csvRecord [] (dataKeys probes) v = (dataKeys probes).zip v := by
        have := csvRecord_fresh (dataKeys probes) v [] hnd (fun k _ => rfl)
        simpa [csvRecord] using this
      simp only [daqRecord, hdict, csvWrite]
      rw [List.map_fst_zip (dataKeys probes) v (le_of_eq hv.symm),
        List.map_snd_zip (dataKeys probes) v (le_of_eq hv)]
      simp
    have hroll := daqRecordAll_go (dataKeys probes) hnd vrest v [v] hv
      (fun vs hvs => hlen vs (List.mem_cons_of_mem v hvs))
    obtain ⟨w2, _, heq⟩ := hroll
    have hall : daqRecordAll (dataKeys probes) (v :: vrest) =
        ((dataKeys probes).zip w2, ⟨some (dataKeys probes), 1, v :: vrest⟩) := by
      simp only [daqRecordAll, List.foldl_cons, hfirst]
      rw [heq]
      simp
    refine ⟨by rw [hall], by rw [hall], by rw [hall], ?_, rfl⟩
    rw [hall]
    intro r hr
    exact hlen r hr

theorem output_schema_invariant_witness :
    (daqRecordAll (dataKeys [⟨"Temperature", "degC"⟩]) [[0, 25], [1, 26]]).2.header =
      some (dataKeys [⟨"Temperature", "degC"⟩]) ∧
    (daqRecordAll (dataKeys [⟨"Temperature", "degC"⟩]) [[0, 25], [1, 26]]).2.headerWrites = 1 ∧
    (daqRecordAll (dataKeys [⟨"Temperature", "degC"⟩]) [[0, 25], [1, 26]]).2.rows =
      [[0, 25], [1, 26]] ∧
    (∀ r ∈ (daqRecordAll (dataKeys [⟨"Temperature", "degC"⟩]) [[0, 25], [1, 26]]).2.rows,
      r.length = (dataKeys [⟨"Temperature", "degC"⟩]).length) ∧
    dataKeys [⟨"Temperature", "degC"⟩] =
      "time" :: [(⟨"Temperature", "degC"⟩ : ProbeInfo)].map
        (fun p => p.name ++ " [" ++ p.u_symbol ++ "]") :=
  output_schema_invariant [⟨"Temperature", "degC"⟩] [[0, 25], [1, 26]]
    (by decide) (by decide) (by decide)

/-- C9: with an empty probe list, `acquire` returns the empty list, which the
truthiness test `not readings` of the main loop treats like a failed
acquisition: the loop breaks during its first iteration (exit counter 0),
zero data rows are written, and the terminal line is the normal-completion
one. -/
theorem empty_probes_normal_completion :
    acquire false 16 [] = some [] ∧
    runModel (-1) (fun _ => true) (fun _ => false) (fun _ => acquire false 16 [])
      (fun _ => true) 10 = ⟨[0], 0, 0, "Requested acquisition time completed"⟩ := by
  exact ⟨rfl, rfl⟩

/-- C10: each of `get`, `get_update`, `set` called with a name that is not
among the device's measurement keys raises the guard `KeyError` (the raise
happens before any state is read or written, so neither the in-memory values
nor the device file change); and `set` with a value equal to the stored last
value performs no file write and returns the state unchanged. -/
theorem virtual_device_guards (d d2 : VirtualDevice) (name nm : String) (v val : ℚ)
    (h : hasKey d.meas_vals name = false)
    (h2 : hasKey d2.meas_vals nm = true)
    (h3 : val = (lookupQ d2.meas_vals nm).getD 0) :
    VirtualDevice.get d name = .error (keyErrMsg name) ∧
    VirtualDevice.get_update d name = .error (keyErrMsg name) ∧
    VirtualDevice.set d name v = .error (keyErrMsg name) ∧
    VirtualDevice.set d2 nm val = .ok (d2, false) := by
  refine ⟨?_, ?_, ?_, ?_⟩
  · simp [VirtualDevice.get, h]
  · simp [VirtualDevice.get_update, h]
  · simp [VirtualDevice.set, h]
  · simp [VirtualDevice.set, h2, h3]

theorem virtual_device_guards_witness :
    VirtualDevice.get ⟨[("a", 1)], [("a", 1)]⟩ "b" = .error (keyErrMsg "b") ∧
    VirtualDevice.get_update ⟨[("a", 1)], [("a", 1)]⟩ "b" = .error (keyErrMsg "b") ∧
    VirtualDevice.set ⟨[("a", 1)], [("a", 1)]⟩ "b" 2 = .error (keyErrMsg "b") ∧
    VirtualDevice.set ⟨[("a", 1)], [("a", 1)]⟩ "a" 1 =
      .ok (⟨[("a", 1)], [("a", 1)]⟩, false) :=
  virtual_device_guards ⟨[("a", 1)], [("a", 1)]⟩ ⟨[("a", 1)], [("a", 1)]⟩ "b" "a" 2 1
    rfl rfl rfl
